import Mathlib

/-!
Verification of the novampires-go player-input / auto-aim / camera core.

The Go source is shallowly embedded over the real numbers: `float64`
values become `ℝ`, `math.Sqrt` becomes `Real.sqrt`, `math.Floor` becomes
`Int.floor` (cast back to `ℝ`), `math.Atan2` is modelled piecewise from
`Real.arctan`, and Go structs become Lean structures.  Every definition
is translated from the corresponding source function; doc comments name
the file and symbol it embeds.
-/

noncomputable section

open Classical

/-! ## Vector2 and Rectangle (src/main.go, package common chunk; src/internal/common/types.go) -/

/-- Embeds `common.Vector2` with `float64` fields modelled as reals. -/
@[ext]
structure Vector2 where
  x : ℝ
  y : ℝ

namespace Vector2

/-- Embeds `Vector2.Add`. -/
def Add (v v2 : Vector2) : Vector2 := ⟨v.x + v2.x, v.y + v2.y⟩

/-- Embeds `Vector2.Sub`. -/
def Sub (v v2 : Vector2) : Vector2 := ⟨v.x - v2.x, v.y - v2.y⟩

/-- Embeds `Vector2.Scale`. -/
def Scale (v : Vector2) (s : ℝ) : Vector2 := ⟨v.x * s, v.y * s⟩

/-- Embeds `Vector2.Div`. -/
def Div (v : Vector2) (s : ℝ) : Vector2 := ⟨v.x / s, v.y / s⟩

/-- Embeds `Vector2.LengthSquared`. -/
def LengthSquared (v : Vector2) : ℝ := v.x * v.x + v.y * v.y

/-- Embeds `Vector2.Length`.  The source computes
`v.LengthSquared() * 0.5`, not a square root; this is kept verbatim. -/
def Length (v : Vector2) : ℝ := v.LengthSquared * 0.5

/-- Embeds `Vector2.MagnitudeSquared`. -/
def MagnitudeSquared (v : Vector2) : ℝ := v.x * v.x + v.y * v.y

/-- Embeds `Vector2.Magnitude` (`math.Sqrt(v.MagnitudeSquared())`). -/
def Magnitude (v : Vector2) : ℝ := Real.sqrt v.MagnitudeSquared

/-- Embeds `Vector2.Normalize` (`v.Div(v.Length())`). -/
def Normalize (v : Vector2) : Vector2 := v.Div v.Length

/-- Embeds `Vector2.Normalized`: returns the zero vector when the
magnitude is zero, otherwise divides both components by the magnitude. -/
def Normalized (v : Vector2) : Vector2 :=
  if v.Magnitude = 0 then ⟨0, 0⟩ else ⟨v.x / v.Magnitude, v.y / v.Magnitude⟩

/-- Embeds `Vector2.Dot`. -/
def Dot (v v2 : Vector2) : ℝ := v.x * v2.x + v.y * v2.y

/-- Embeds `Vector2.Distance` (`v.Sub(v2).Length()`). -/
def Distance (v v2 : Vector2) : ℝ := (v.Sub v2).Length

/-- Embeds `Vector2.DistanceSquared` (`v.Sub(v2).LengthSquared()`). -/
def DistanceSquared (v v2 : Vector2) : ℝ := (v.Sub v2).LengthSquared

/-- Embeds `Vector2.Rotate`: the standard counter-clockwise rotation
matrix.  `ebiten.GeoM.Rotate` applies the same matrix. -/
def Rotate (v : Vector2) (angle : ℝ) : Vector2 :=
  ⟨v.x * Real.cos angle - v.y * Real.sin angle,
   v.x * Real.sin angle + v.y * Real.cos angle⟩

end Vector2

/-- Embeds `common.Rectangle` (src/internal/common/types.go). -/
structure Rectangle where
  Pos : Vector2
  Size : Vector2

/-! ## Angle utilities (src/main.go, package common chunk) -/

/-- Embeds `common.NormalizeAngle`:
`angle - 2*math.Pi*math.Floor((angle+math.Pi)/(2*math.Pi))`. -/
def NormalizeAngle (angle : ℝ) : ℝ :=
  angle - 2 * Real.pi * (⌊(angle + Real.pi) / (2 * Real.pi)⌋ : ℤ)

/-- Model of Go `math.Atan2 (y, x)` on the reals (signed-zero cases
collapse since `ℝ` has a single zero): quadrant-corrected arctangent
with range `(-π, π]` on nonzero inputs and `atan2 0 0 = 0`. -/
def atan2 (y x : ℝ) : ℝ :=
  if 0 < x then Real.arctan (y / x)
  else if x < 0 then
    (if 0 ≤ y then Real.arctan (y / x) + Real.pi
     else Real.arctan (y / x) - Real.pi)
  else
    (if 0 < y then Real.pi / 2
     else if y < 0 then -(Real.pi / 2)
     else 0)

/-! ## Camera (src/internal/engine/camera/camera.go, two implementations) -/

/-- Embeds `camera.Config` (identical in both camera implementations). -/
structure CameraConfig where
  Smoothing : ℝ
  Deadzone : Rectangle
  Bounds : Option Rectangle
  ViewportSize : Vector2

/-- Embeds the transform-relevant state of `camera.Camera`: `pos`,
`config`, `zoom`, `rotation`.  The follow target and the cached
`visibleArea` play no role in the coordinate transforms. -/
structure Camera where
  pos : Vector2
  config : CameraConfig
  zoom : ℝ
  rotation : ℝ

/-- Embeds `Camera.WorldToScreen` of the first implementation, which
applies `GetTransform`: `Translate(-pos)`, `Scale(zoom, zoom)`,
`Rotate(rotation)` when `rotation != 0`, then
`Translate(viewport/2)`; `ebiten.GeoM` applies the operations in call
order and `GeoM.Rotate` is the counter-clockwise rotation matrix. -/
def WorldToScreen1 (c : Camera) (worldPos : Vector2) : Vector2 :=
  let p1 : Vector2 := ⟨worldPos.x - c.pos.x, worldPos.y - c.pos.y⟩
  let p2 : Vector2 := ⟨p1.x * c.zoom, p1.y * c.zoom⟩
  let p3 : Vector2 := if c.rotation ≠ 0 then p2.Rotate c.rotation else p2
  ⟨p3.x + c.config.ViewportSize.x / 2, p3.y + c.config.ViewportSize.y / 2⟩

/-- Embeds `Camera.ScreenToWorld` of the first implementation:
`Translate(-viewport/2)`, `Scale(1/zoom, 1/zoom)`, `Rotate(-rotation)`
when `rotation != 0`, then `Translate(pos)`. -/
def ScreenToWorld1 (c : Camera) (screenPos : Vector2) : Vector2 :=
  let p1 : Vector2 := ⟨screenPos.x - c.config.ViewportSize.x / 2,
                       screenPos.y - c.config.ViewportSize.y / 2⟩
  let p2 : Vector2 := ⟨p1.x * (1 / c.zoom), p1.y * (1 / c.zoom)⟩
  let p3 : Vector2 := if c.rotation ≠ 0 then p2.Rotate (-c.rotation) else p2
  ⟨p3.x + c.pos.x, p3.y + c.pos.y⟩

/-- Embeds `Camera.SetZoom` of the first implementation:
`c.zoom = math.Max(0.1, zoom)` (the `visibleArea` refresh is not part
of the transform state). -/
def SetZoom1 (c : Camera) (zoom : ℝ) : Camera :=
  { c with zoom := max 0.1 zoom }

/-- Embeds `Camera.WorldToScreen` of the second implementation:
translate relative to the camera, rotate with `cos(-rotation)` and
`sin(-rotation)` when `rotation != 0`, then multiply by `zoom`. -/
def WorldToScreen2 (c : Camera) (worldPos : Vector2) : Vector2 :=
  let x := worldPos.x - c.pos.x
  let y := worldPos.y - c.pos.y
  let p : Vector2 :=
    if c.rotation ≠ 0 then
      ⟨x * Real.cos (-c.rotation) - y * Real.sin (-c.rotation),
       x * Real.sin (-c.rotation) + y * Real.cos (-c.rotation)⟩
    else ⟨x, y⟩
  ⟨p.x * c.zoom, p.y * c.zoom⟩

/-- Embeds `Camera.ScreenToWorld` of the second implementation:
divide by `zoom`, rotate with `cos(rotation)` and `sin(rotation)` when
`rotation != 0`, then translate back to world coordinates. -/
def ScreenToWorld2 (c : Camera) (screenPos : Vector2) : Vector2 :=
  let x := screenPos.x / c.zoom
  let y := screenPos.y / c.zoom
  let p : Vector2 :=
    if c.rotation ≠ 0 then
      ⟨x * Real.cos c.rotation - y * Real.sin c.rotation,
       x * Real.sin c.rotation + y * Real.cos c.rotation⟩
    else ⟨x, y⟩
  ⟨p.x + c.pos.x, p.y + c.pos.y⟩

/-- Embeds `Camera.GetCenter` of the second implementation. -/
def GetCenter2 (c : Camera) : Vector2 :=
  ⟨c.pos.x + c.config.ViewportSize.x / (2 * c.zoom),
   c.pos.y + c.config.ViewportSize.y / (2 * c.zoom)⟩

/-- Embeds `Camera.SetCenter` of the second implementation. -/
def SetCenter2 (c : Camera) (worldPos : Vector2) : Camera :=
  { c with pos := ⟨worldPos.x - c.config.ViewportSize.x / (2 * c.zoom),
                   worldPos.y - c.config.ViewportSize.y / (2 * c.zoom)⟩ }

/-- Embeds `Camera.SetZoom` of the second implementation: store the
center, clamp the zoom with `math.Max(0.1, zoom)`, restore the center. -/
def SetZoom2 (c : Camera) (zoom : ℝ) : Camera :=
  let oldCenter := GetCenter2 c
  SetCenter2 { c with zoom := max 0.1 zoom } oldCenter

/-! ## Player controller
(src/internal/engine/entity/player_input.go `PlayerInput` and
src/unnamed/part_005 `player.Controller`; their movement and aiming
code is line-for-line identical, so one embedding serves both). -/

/-- Embeds `common.TargetInfo`. -/
structure TargetInfo where
  ID : ℕ
  Pos : Vector2
  Vel : Vector2
  Radius : ℝ
  Priority : ℝ

/-- Embeds `entity.PlayerInputConfig` (= `player.Config` of part_005
with `Range` named `AutoAimRange`). -/
structure PlayerInputConfig where
  MaxSpeed : ℝ
  Acceleration : ℝ
  Deceleration : ℝ
  RotationSpeed : ℝ
  AutoAimRange : ℝ

/-- Embeds `entity.DefaultPlayerInputConfig`. -/
def DefaultPlayerInputConfig : PlayerInputConfig :=
  { MaxSpeed := 5.0, Acceleration := 1.0, Deceleration := 0.5,
    RotationSpeed := 0.15, AutoAimRange := 400.0 }

/-- Embeds the mutable controller state shared by
`entity.PlayerInput` (whose position, velocity and rotation live on the
owned `Entity`) and `player.Controller` of part_005. -/
structure Controller where
  pos : Vector2
  vel : Vector2
  rotation : ℝ
  config : PlayerInputConfig
  autoAim : Bool
  usingGamepad : Bool
  lastMouseX : ℤ
  lastMouseY : ℤ
  lastAimDx : ℝ
  lastAimDy : ℝ

/-- Per-frame outputs of the `common.InputProvider` consumed by
`GetAimVector`: `GetGamepadAim` as an optional pair (`some` when the
`ok` flag is true) and `GetMousePositionWorld` as integers. -/
structure InputSnapshot where
  gamepadAim : Option (ℝ × ℝ)
  mouseWorldX : ℤ
  mouseWorldY : ℤ

/-- Embeds the velocity computation of `updateMovement` (identical in
player_input.go and part_005): accelerate toward the input and cap at
`MaxSpeed * |input|`, or decelerate toward zero when the input is zero.
The subsequent `position += velocity` does not alter the velocity. -/
def updateMovement (cfg : PlayerInputConfig) (dx dy : ℝ) (velocity : Vector2) : Vector2 :=
  let inputVec : Vector2 := ⟨dx, dy⟩
  let inputMagnitude := inputVec.Magnitude
  if 0 < inputMagnitude then
    let targetSpeed := cfg.MaxSpeed * inputMagnitude
    let v := velocity.Add (inputVec.Scale cfg.Acceleration)
    if targetSpeed < v.Magnitude then v.Normalized.Scale targetSpeed else v
  else
    let currentSpeed := velocity.Magnitude
    if 0 < currentSpeed then
      let newSpeed := max 0 (currentSpeed - cfg.Deceleration)
      if 0 < newSpeed then velocity.Normalized.Scale newSpeed else ⟨0, 0⟩
    else velocity

/-- Squared distance from the controller position to a target, as
computed inside `updateAiming`: `target.Pos.Sub(pos).MagnitudeSquared()`. -/
def distSqTo (pos : Vector2) (target : TargetInfo) : ℝ :=
  (target.Pos.Sub pos).MagnitudeSquared

/-- The target-scan loop of `updateAiming`, generalized over the loop
accumulator `(closestTarget, closestDistSq)`. -/
def selectFold (pos : Vector2) (targets : List TargetInfo)
    (closestTarget : Option TargetInfo) (closestDistSq : ℝ) :
    Option TargetInfo × ℝ :=
  targets.foldl
    (fun acc target =>
      if distSqTo pos target < acc.2 then (some target, distSqTo pos target) else acc)
    (closestTarget, closestDistSq)

/-- The target-scan loop of `updateAiming` with its initial accumulator
`closestTarget = nil`, `closestDistSq = AutoAimRange * AutoAimRange`. -/
def selectClosest (rangeSq : ℝ) (pos : Vector2) (targets : List TargetInfo) :
    Option TargetInfo × ℝ :=
  selectFold pos targets none rangeSq

/-- The auto-aim branch of `updateAiming`: when the scan found a
target, turn by `NormalizeAngle(targetRotation - rotation) * RotationSpeed`
and re-normalize; otherwise leave the rotation unchanged. -/
def autoAimRotation (cfg : PlayerInputConfig) (pos : Vector2) (rotation : ℝ)
    (targets : List TargetInfo) : ℝ :=
  match (selectClosest (cfg.AutoAimRange * cfg.AutoAimRange) pos targets).1 with
  | some closestTarget =>
    let aimDirection := closestTarget.Pos.Sub pos
    let targetRotation := atan2 aimDirection.y aimDirection.x
    let angleDiff := NormalizeAngle (targetRotation - rotation)
    let rotationStep := angleDiff * cfg.RotationSpeed
    NormalizeAngle (rotation + rotationStep)
  | none => rotation

/-- Embeds `GetAimVector` (identical in player_input.go and part_005):
prefer the gamepad and store its raw vector; otherwise on mouse movement
store the normalized player-to-mouse direction (keeping the previous
direction when the mouse sits exactly on the player); otherwise return
the stored aim.  Returns the aim pair and the updated state. -/
def GetAimVector (inp : InputSnapshot) (c : Controller) : (ℝ × ℝ) × Controller :=
  match inp.gamepadAim with
  | some (dx, dy) =>
    ((dx, dy), { c with usingGamepad := true, lastAimDx := dx, lastAimDy := dy })
  | none =>
    if inp.mouseWorldX ≠ c.lastMouseX ∨ inp.mouseWorldY ≠ c.lastMouseY then
      let mousePos : Vector2 := ⟨(inp.mouseWorldX : ℝ), (inp.mouseWorldY : ℝ)⟩
      let aimDirection := mousePos.Sub c.pos
      let aimDirection :=
        if 0 < aimDirection.MagnitudeSquared then aimDirection.Normalized
        else ⟨c.lastAimDx, c.lastAimDy⟩
      ((aimDirection.x, aimDirection.y),
        { c with usingGamepad := false,
                 lastMouseX := inp.mouseWorldX, lastMouseY := inp.mouseWorldY,
                 lastAimDx := aimDirection.x, lastAimDy := aimDirection.y })
    else
      ((c.lastAimDx, c.lastAimDy), c)

/-- Embeds `updateAiming` (identical in player_input.go and part_005):
`if p.autoAim && len(targets) > 0` run the auto-aim scan, `else` manual
aim from `GetAimVector`, setting the rotation to `atan2(dy, dx)` only
when the aim vector is nonzero. -/
def updateAiming (inp : InputSnapshot) (c : Controller) (targets : List TargetInfo) :
    Controller :=
  if c.autoAim = true ∧ targets ≠ [] then
    { c with rotation := autoAimRotation c.config c.pos c.rotation targets }
  else
    let r := GetAimVector inp c
    if r.1.1 ≠ 0 ∨ r.1.2 ≠ 0 then { r.2 with rotation := atan2 r.1.2 r.1.1 } else r.2

/-- Embeds `PlayerInput.GetAimDirection` (player_input.go): the pair
returned by `GetAimVector`, as a `Vector2`. -/
def PlayerInputGetAimDirection (inp : InputSnapshot) (c : Controller) : Vector2 :=
  ⟨(GetAimVector inp c).1.1, (GetAimVector inp c).1.2⟩

/-- Embeds `Controller.GetAimDirection` of part_005:
`Vector2{X: cos(rotation), Y: sin(rotation)}.Normalized()`. -/
def ControllerGetAimDirection (rotation : ℝ) : Vector2 :=
  (Vector2.mk (Real.cos rotation) (Real.sin rotation)).Normalized

/-! ## Input manager (src/internal/engine/input/manager.go, second
implementation, and src/internal/engine/input/provider.go) -/

/-- Embeds the Go type `Action uint8` (src/internal/common/types.go);
the constants mirror the `iota` block, so the Go zero value is `0`. -/
abbrev GoAction := ℕ

/-- The first `iota` constant, `ActionMoveUp = 0`. -/
def ActionMoveUp : GoAction := 0

/-- `ActionMoveDown = 1`. -/
def ActionMoveDown : GoAction := 1

/-- `ActionMoveLeft = 2`. -/
def ActionMoveLeft : GoAction := 2

/-- `ActionMoveRight = 3`. -/
def ActionMoveRight : GoAction := 3

/-- `ActionAutoAttack = 4`. -/
def ActionAutoAttack : GoAction := 4

/-- Embeds `input.InputID` (the marker interface) as a tagged variant:
`KeyboardKey`, `GamepadButton`, `GamepadAxis`, `ComboKey`, with key,
button, axis and gamepad identifiers modelled as naturals. -/
inductive InputID where
  | KeyboardKey (key : ℕ)
  | GamepadButton (gamepadID : ℕ) (button : ℕ)
  | GamepadAxis (gamepadID : ℕ) (axis : ℕ)
  | ComboKey (modifier : ℕ) (key : ℕ)
deriving DecidableEq

/-- Embeds the `bindings map[InputID]Action` field of `input.Manager`. -/
abbrev BindingsMap := InputID → Option GoAction

namespace Manager

/-- Embeds `Manager.Bind`: `m.bindings[input] = binding`. -/
def Bind (b : BindingsMap) (input : InputID) (binding : GoAction) : BindingsMap :=
  fun i => if i = input then some binding else b i

/-- Embeds `Manager.Unbind`: `delete(m.bindings, input)`. -/
def Unbind (b : BindingsMap) (input : InputID) : BindingsMap :=
  fun i => if i = input then none else b i

/-- Go map indexing `m.bindings[oldInput]`: yields the stored value, or
the zero value of `Action` (which is `0`) when the key is absent. -/
def mapIndex (b : BindingsMap) (input : InputID) : GoAction :=
  (b input).getD 0

/-- Embeds `Manager.Rebind` (identical in both manager
implementations): read `m.bindings[oldInput]` through Go map indexing,
`Unbind(oldInput)`, then `Bind(newInput, binding)`. -/
def Rebind (b : BindingsMap) (oldInput newInput : InputID) : BindingsMap :=
  Bind (Unbind b oldInput) newInput (mapIndex b oldInput)

end Manager

/-- Digital x component of `GetMovementVector`:
`dx--` when MoveLeft is pressed, `dx++` when MoveRight is pressed. -/
def digitalDx (left right : Bool) : ℝ :=
  (if left then -1 else 0) + (if right then 1 else 0)

/-- Digital y component of `GetMovementVector`:
`dy--` when MoveUp is pressed, `dy++` when MoveDown is pressed. -/
def digitalDy (up down : Bool) : ℝ :=
  (if up then -1 else 0) + (if down then 1 else 0)

/-- Embeds `input.normalizeVector`: divide by the length only when both
components are nonzero and the length exceeds 1. -/
def normalizeVector (x y : ℝ) : ℝ × ℝ :=
  if x ≠ 0 ∧ y ≠ 0 then
    let length := Real.sqrt (x * x + y * y)
    if 1 < length then (x / length, y / length) else (x, y)
  else (x, y)

/-- Embeds `Manager.GetMovementVector` (second implementation,
manager.go): digital input from the four movement actions, normalized
via `normalizeVector`; otherwise the first gamepad left stick with a
smoothed deadzone, rescaling the magnitude from `[deadzone, 1]` to
`[0, 1]`; `(0, 0)` when no gamepad is connected.  The booleans are the
`IsPressed` results for MoveUp/MoveDown/MoveLeft/MoveRight and the
optional pair is the left-stick axis reading. -/
def GetMovementVector (deadzone : ℝ) (up down left right : Bool)
    (leftStick : Option (ℝ × ℝ)) : ℝ × ℝ :=
  let dy := digitalDy up down
  let dx := digitalDx left right
  if dx ≠ 0 ∨ dy ≠ 0 then normalizeVector dx dy
  else
    match leftStick with
    | some (ax, ay) =>
      let magnitude := Real.sqrt (ax * ax + ay * ay)
      if magnitude < deadzone then (0, 0)
      else
        let adjustedMagnitude := (magnitude - deadzone) / (1 - deadzone)
        (ax / magnitude * adjustedMagnitude, ay / magnitude * adjustedMagnitude)
    | none => (dx, dy)

/-- Embeds `Manager.GetGamepadAim` (second implementation, manager.go):
return the raw right-stick axis values with `ok = true` when either
axis magnitude reaches the deadzone, else `(0, 0, false)`; `none`
models no connected gamepad. -/
def GetGamepadAim (deadzone : ℝ) (rightStick : Option (ℝ × ℝ)) : ℝ × ℝ × Bool :=
  match rightStick with
  | some (dx, dy) =>
    if deadzone ≤ |dx| ∨ deadzone ≤ |dy| then (dx, dy, true) else (0, 0, false)
  | none => (0, 0, false)

/-! ## Concrete instances used by witnesses and counterexamples -/

/-- A camera with zoom 1 and rotation 0 at position (3, 4), default
viewport 1600x900. -/
def camTest : Camera :=
  { pos := ⟨3, 4⟩,
    config := { Smoothing := 0.1, Deadzone := ⟨⟨0, 0⟩, ⟨10, 10⟩⟩,
                Bounds := none, ViewportSize := ⟨1600, 900⟩ },
    zoom := 1, rotation := 0 }

/-- A controller state with auto-aim enabled, rotation 0, at the
origin, with the default configuration. -/
def ctlAutoAim : Controller :=
  { pos := ⟨0, 0⟩, vel := ⟨0, 0⟩, rotation := 0,
    config := DefaultPlayerInputConfig, autoAim := true,
    usingGamepad := false, lastMouseX := 0, lastMouseY := 0,
    lastAimDx := 0, lastAimDy := 0 }

/-- A controller state with auto-aim enabled and rotation 1. -/
def ctlRotOne : Controller :=
  { pos := ⟨0, 0⟩, vel := ⟨0, 0⟩, rotation := 1,
    config := DefaultPlayerInputConfig, autoAim := true,
    usingGamepad := false, lastMouseX := 0, lastMouseY := 0,
    lastAimDx := 0, lastAimDy := 0 }

/-- An input snapshot with the gamepad right stick pushed fully right. -/
def inpGamepadRight : InputSnapshot :=
  { gamepadAim := some (1, 0), mouseWorldX := 0, mouseWorldY := 0 }

/-- An input snapshot with no gamepad and an unmoved mouse. -/
def inpIdle : InputSnapshot :=
  { gamepadAim := none, mouseWorldX := 0, mouseWorldY := 0 }

/-- An input snapshot with no gamepad and the mouse moved to (3, 4). -/
def inpMouseMoved : InputSnapshot :=
  { gamepadAim := none, mouseWorldX := 3, mouseWorldY := 4 }

/-- An input snapshot carrying the raw half-deflected right stick
exactly as `GetGamepadAim` delivers it. -/
def inpGamepadHalf : InputSnapshot :=
  { gamepadAim := some (1 / 2, 0), mouseWorldX := 0, mouseWorldY := 0 }

/-- Targets on the x axis at distances 50, 150 and 500 from the origin. -/
def targetsNear : List TargetInfo :=
  [ { ID := 1, Pos := ⟨50, 0⟩, Vel := ⟨0, 0⟩, Radius := 0, Priority := 0 },
    { ID := 2, Pos := ⟨150, 0⟩, Vel := ⟨0, 0⟩, Radius := 0, Priority := 0 },
    { ID := 3, Pos := ⟨500, 0⟩, Vel := ⟨0, 0⟩, Radius := 0, Priority := 0 } ]

/-- A single target at distance 500 from the origin, outside the
default auto-aim range of 400. -/
def targetsFar : List TargetInfo :=
  [ { ID := 9, Pos := ⟨500, 0⟩, Vel := ⟨0, 0⟩, Radius := 0, Priority := 0 } ]

/-- The empty bindings map. -/
def emptyBindings : BindingsMap := fun _ => none

end

/-! ## Basic lemmas about the embedded geometry -/

lemma Vector2.magnitudeSquared_nonneg (v : Vector2) : 0 ≤ v.MagnitudeSquared := by
  unfold Vector2.MagnitudeSquared
  nlinarith [mul_self_nonneg v.x, mul_self_nonneg v.y]

lemma Vector2.magnitude_nonneg (v : Vector2) : 0 ≤ v.Magnitude :=
  Real.sqrt_nonneg _

lemma Vector2.magnitude_eq_zero_iff (v : Vector2) :
    v.Magnitude = 0 ↔ v = ⟨0, 0⟩ := by
  unfold Vector2.Magnitude
  rw [Real.sqrt_eq_zero' ]
  constructor
  · intro h
    have h0 := Vector2.magnitudeSquared_nonneg v
    have hMS : v.MagnitudeSquared = 0 := le_antisymm (by tauto) h0
    unfold Vector2.MagnitudeSquared at hMS
    have hx : v.x = 0 := by nlinarith [mul_self_nonneg v.x, mul_self_nonneg v.y]
    have hy : v.y = 0 := by nlinarith [mul_self_nonneg v.x, mul_self_nonneg v.y]
    ext <;> simp [hx, hy]
  · intro h
    subst h
    simp [Vector2.MagnitudeSquared]

lemma Vector2.magnitude_mk_zero_zero : (Vector2.mk 0 0).Magnitude = 0 := by
  rw [Vector2.magnitude_eq_zero_iff]

lemma Vector2.sq_magnitude (v : Vector2) :
    v.Magnitude * v.Magnitude = v.MagnitudeSquared := by
  unfold Vector2.Magnitude
  exact Real.mul_self_sqrt (Vector2.magnitudeSquared_nonneg v)

lemma Vector2.magnitude_scale (v : Vector2) (t : ℝ) :
    (v.Scale t).Magnitude = |t| * v.Magnitude := by
  unfold Vector2.Magnitude Vector2.MagnitudeSquared Vector2.Scale
  have h : v.x * t * (v.x * t) + v.y * t * (v.y * t)
      = t ^ 2 * (v.x * v.x + v.y * v.y) := by ring
  rw [h, Real.sqrt_mul (sq_nonneg t), Real.sqrt_sq_eq_abs]

lemma Vector2.magnitude_normalized (v : Vector2) (h : v.Magnitude ≠ 0) :
    v.Normalized.Magnitude = 1 := by
  unfold Vector2.Normalized
  rw [if_neg h]
  have hM2 : v.Magnitude * v.Magnitude = v.x * v.x + v.y * v.y :=
    Vector2.sq_magnitude v
  show Real.sqrt (v.x / v.Magnitude * (v.x / v.Magnitude)
      + v.y / v.Magnitude * (v.y / v.Magnitude)) = 1
  have hsq : v.x / v.Magnitude * (v.x / v.Magnitude)
      + v.y / v.Magnitude * (v.y / v.Magnitude)
      = (v.x * v.x + v.y * v.y) / (v.Magnitude * v.Magnitude) := by
    field_simp
  rw [hsq, ← hM2, div_self (mul_ne_zero h h), Real.sqrt_one]

lemma Vector2.rotate_rotate_neg (θ : ℝ) (v : Vector2) :
    (v.Rotate θ).Rotate (-θ) = v := by
  have h := Real.sin_sq_add_cos_sq θ
  unfold Vector2.Rotate
  ext
  · simp only [Real.cos_neg, Real.sin_neg]
    linear_combination v.x * h
  · simp only [Real.cos_neg, Real.sin_neg]
    linear_combination v.y * h

lemma Vector2.rotate_neg_rotate (θ : ℝ) (v : Vector2) :
    (v.Rotate (-θ)).Rotate θ = v := by
  have h := Vector2.rotate_rotate_neg (-θ) v
  rwa [neg_neg] at h

/-! ## Angle normalization lemmas -/

lemma normalizeAngle_mem_Ico (a : ℝ) :
    NormalizeAngle a ∈ Set.Ico (-Real.pi) Real.pi := by
  have h2pi : (0:ℝ) < 2 * Real.pi := by positivity
  set k : ℤ := ⌊(a + Real.pi) / (2 * Real.pi)⌋ with hk
  have hf1 : (k : ℝ) ≤ (a + Real.pi) / (2 * Real.pi) := Int.floor_le _
  have hf2 : (a + Real.pi) / (2 * Real.pi) < k + 1 := Int.lt_floor_add_one _
  have h1 : (k : ℝ) * (2 * Real.pi) ≤ a + Real.pi := by
    rw [← le_div_iff h2pi]
    exact hf1
  have h2 : a + Real.pi < ((k : ℝ) + 1) * (2 * Real.pi) := by
    rw [← div_lt_iff h2pi]
    exact hf2
  rw [Set.mem_Ico]
  unfold NormalizeAngle
  rw [← hk]
  constructor <;> nlinarith

lemma normalizeAngle_eq_self {x : ℝ} (h : x ∈ Set.Ico (-Real.pi) Real.pi) :
    NormalizeAngle x = x := by
  rw [Set.mem_Ico] at h
  have h2pi : (0:ℝ) < 2 * Real.pi := by positivity
  have hfloor : ⌊(x + Real.pi) / (2 * Real.pi)⌋ = 0 := by
    rw [Int.floor_eq_zero_iff, Set.mem_Ico]
    constructor
    · apply div_nonneg
      · linarith [h.1]
      · linarith
    · rw [div_lt_one h2pi]
      linarith [h.2]
  unfold NormalizeAngle
  rw [hfloor]
  simp

/-- Claim C4, counterexample: the claimed range `(-π, π]` fails at the
input `π`, where `NormalizeAngle` returns `-π`. -/
theorem normalizeAngle_pi_cex_c4 :
    NormalizeAngle Real.pi = -Real.pi ∧
    NormalizeAngle Real.pi ∉ Set.Ioc (-Real.pi) Real.pi := by
  have hpi : Real.pi ≠ 0 := Real.pi_ne_zero
  have h1 : (Real.pi + Real.pi) / (2 * Real.pi) = 1 := by
    field_simp
    ring
  have h2 : NormalizeAngle Real.pi = -Real.pi := by
    unfold NormalizeAngle
    rw [h1]
    simp
    ring
  refine ⟨h2, ?_⟩
  rw [h2, Set.mem_Ioc]
  simp

/-- Claim C4, amended: for every angle `a`,
`NormalizeAngle a = a - 2π * floor((a + π) / (2π))` lies in the
half-open interval `[-π, π)` (not `(-π, π]`: the counterexample
`NormalizeAngle π = -π` forces the flipped endpoints), and
`NormalizeAngle` is exactly idempotent over the reals. -/
theorem normalizeAngle_range_idem_c4 (a : ℝ) :
    NormalizeAngle a ∈ Set.Ico (-Real.pi) Real.pi ∧
    NormalizeAngle (NormalizeAngle a) = NormalizeAngle a :=
  ⟨normalizeAngle_mem_Ico a, normalizeAngle_eq_self (normalizeAngle_mem_Ico a)⟩

/-- Claim C9: normalizing the zero vector is safe and returns exactly
the zero vector (in the real-valued model there is no NaN or infinity;
the zero-magnitude guard avoids the division entirely). -/
theorem normalized_zero_c9 : (Vector2.mk 0 0).Normalized = Vector2.mk 0 0 := by
  unfold Vector2.Normalized
  rw [if_pos Vector2.magnitude_mk_zero_zero]

/-- Claim C7: the code disagrees with the claim.  `Vector2.Length`
computes `LengthSquared() * 0.5` instead of a square root, so
`Distance`, which is built on `Length`, is not the Euclidean metric:
at `v = (0,0)`, `w = (1,0)` the code returns `Distance = 0.5` while
`Magnitude(v - w) = 1` and `DistanceSquared = 1`, so
`Distance(v,w) ≠ Magnitude(v-w)` and `Distance² ≠ DistanceSquared`.
Only the `Magnitude = sqrt(x² + y²)` part of the claim holds. -/
theorem distance_length_bug_c7 :
    Vector2.Distance ⟨0, 0⟩ ⟨1, 0⟩ = 1 / 2 ∧
    (Vector2.Sub ⟨0, 0⟩ ⟨1, 0⟩).Magnitude = 1 ∧
    Vector2.DistanceSquared ⟨0, 0⟩ ⟨1, 0⟩ = 1 ∧
    Vector2.Distance ⟨0, 0⟩ ⟨1, 0⟩ ≠ (Vector2.Sub ⟨0, 0⟩ ⟨1, 0⟩).Magnitude ∧
    Vector2.Distance ⟨0, 0⟩ ⟨1, 0⟩ * Vector2.Distance ⟨0, 0⟩ ⟨1, 0⟩ ≠
      Vector2.DistanceSquared ⟨0, 0⟩ ⟨1, 0⟩ ∧
    (∀ v : Vector2, v.Magnitude = Real.sqrt (v.x * v.x + v.y * v.y)) := by
  have hdist : Vector2.Distance ⟨0, 0⟩ ⟨1, 0⟩ = 1 / 2 := by
    unfold Vector2.Distance Vector2.Length Vector2.LengthSquared Vector2.Sub
    norm_num
  have hmag : (Vector2.Sub ⟨0, 0⟩ ⟨1, 0⟩).Magnitude = 1 := by
    unfold Vector2.Magnitude Vector2.MagnitudeSquared Vector2.Sub
    norm_num
  have hdsq : Vector2.DistanceSquared ⟨0, 0⟩ ⟨1, 0⟩ = 1 := by
    unfold Vector2.DistanceSquared Vector2.LengthSquared Vector2.Sub
    norm_num
  refine ⟨hdist, hmag, hdsq, ?_, ?_, fun v => rfl⟩
  · rw [hdist, hmag]
    norm_num
  · rw [hdist, hdsq]
    norm_num

/-- Claim C10: `Rebind` reads `bindings[oldInput]` with Go map
indexing, so a missing `oldInput` yields the `Action` zero value 0 =
`ActionMoveUp` and `newInput` gets bound to `ActionMoveUp`; `Rebind`
always leaves `newInput` bound; when `oldInput` is bound, its action
moves to `newInput` and `oldInput` is removed. -/
theorem rebind_zero_value_c10 (b : BindingsMap) (oldInput newInput : InputID) :
    (b oldInput = none →
      Manager.Rebind b oldInput newInput newInput = some ActionMoveUp) ∧
    (∃ a, Manager.Rebind b oldInput newInput newInput = some a) ∧
    (∀ a, b oldInput = some a →
      Manager.Rebind b oldInput newInput newInput = some a) ∧
    (∀ a, b oldInput = some a → oldInput ≠ newInput →
      Manager.Rebind b oldInput newInput oldInput = none) := by
  unfold Manager.Rebind Manager.Bind Manager.Unbind Manager.mapIndex
  refine ⟨?_, ?_, ?_, ?_⟩
  · intro h
    simp [h, ActionMoveUp]
  · exact ⟨(b oldInput).getD 0, by simp⟩
  · intro a h
    simp [h]
  · intro a h hne
    simp [hne]

/-- Witness for C10 at a concrete input: rebinding from an unbound
keyboard key binds the new key to `ActionMoveUp`. -/
theorem rebind_zero_value_c10_witness :
    emptyBindings (InputID.KeyboardKey 0) = none ∧
    Manager.Rebind emptyBindings (InputID.KeyboardKey 0) (InputID.KeyboardKey 1)
      (InputID.KeyboardKey 1) = some ActionMoveUp :=
  ⟨rfl, (rebind_zero_value_c10 emptyBindings (InputID.KeyboardKey 0)
      (InputID.KeyboardKey 1)).1 rfl⟩

/-! ## Deceleration (claim C5) -/

/-- Claim C5: with zero movement input, one tick of the movement
integration scales the velocity by a nonnegative factor (the direction
never flips), its magnitude becomes `max 0 (‖v‖ - Deceleration)` — an
exact reduction by the configured deceleration, never negative — and
the velocity is set to exactly `(0, 0)` as soon as the subtraction
would not stay positive. -/
theorem deceleration_floor_c5 (cfg : PlayerInputConfig) (vel : Vector2)
    (hd : 0 ≤ cfg.Deceleration) :
    (updateMovement cfg 0 0 vel).Magnitude
      = max 0 (vel.Magnitude - cfg.Deceleration) ∧
    (∃ t : ℝ, 0 ≤ t ∧ updateMovement cfg 0 0 vel = vel.Scale t) ∧
    (vel.Magnitude - cfg.Deceleration ≤ 0 → updateMovement cfg 0 0 vel = ⟨0, 0⟩) ∧
    0 ≤ (updateMovement cfg 0 0 vel).Magnitude := by
  have hred : updateMovement cfg 0 0 vel =
      if 0 < vel.Magnitude then
        (if 0 < max 0 (vel.Magnitude - cfg.Deceleration) then
          vel.Normalized.Scale (max 0 (vel.Magnitude - cfg.Deceleration))
        else ⟨0, 0⟩)
      else vel := by
    unfold updateMovement
    simp only [Vector2.magnitude_mk_zero_zero, lt_self_iff_false, if_false]
  by_cases h1 : 0 < vel.Magnitude
  · by_cases h2 : 0 < max 0 (vel.Magnitude - cfg.Deceleration)
    · have hMne : vel.Magnitude ≠ 0 := ne_of_gt h1
      have hres : updateMovement cfg 0 0 vel
          = vel.Normalized.Scale (max 0 (vel.Magnitude - cfg.Deceleration)) := by
        rw [hred, if_pos h1, if_pos h2]
      refine ⟨?_, ⟨max 0 (vel.Magnitude - cfg.Deceleration) / vel.Magnitude,
        div_nonneg (le_max_left _ _) (le_of_lt h1), ?_⟩, ?_, ?_⟩
      · rw [hres, Vector2.magnitude_scale, Vector2.magnitude_normalized vel hMne,
          abs_of_pos h2]
        ring
      · rw [hres]
        unfold Vector2.Normalized
        rw [if_neg hMne]
        unfold Vector2.Scale
        ext <;> ring
      · intro hle
        exfalso
        rw [max_eq_left hle] at h2
        exact lt_irrefl 0 h2
      · exact Vector2.magnitude_nonneg _
    · have hres : updateMovement cfg 0 0 vel = ⟨0, 0⟩ := by
        rw [hred, if_pos h1, if_neg h2]
      have hmax : max 0 (vel.Magnitude - cfg.Deceleration) = 0 :=
        le_antisymm (not_lt.mp h2) (le_max_left _ _)
      refine ⟨?_, ⟨0, le_refl 0, ?_⟩, fun _ => hres, ?_⟩
      · rw [hres, hmax]
        exact Vector2.magnitude_mk_zero_zero
      · rw [hres]
        unfold Vector2.Scale
        ext <;> simp
      · exact Vector2.magnitude_nonneg _
  · have hM0 : vel.Magnitude = 0 :=
      le_antisymm (not_lt.mp h1) (Vector2.magnitude_nonneg vel)
    have hv : vel = ⟨0, 0⟩ := (Vector2.magnitude_eq_zero_iff vel).mp hM0
    have hres : updateMovement cfg 0 0 vel = vel := by rw [hred, if_neg h1]
    refine ⟨?_, ⟨1, zero_le_one, ?_⟩, ?_, ?_⟩
    · rw [hres, hM0, max_eq_left (by linarith)]
    · rw [hres]
      unfold Vector2.Scale
      ext <;> simp
    · intro _
      rw [hres, hv]
    · exact Vector2.magnitude_nonneg _

/-- Witness for C5 at a concrete input: velocity `(3, 4)` of magnitude
5 decelerates by the default 0.5 to magnitude 4.5. -/
theorem deceleration_floor_c5_witness :
    0 ≤ DefaultPlayerInputConfig.Deceleration ∧
    (updateMovement DefaultPlayerInputConfig 0 0 ⟨3, 4⟩).Magnitude = 4.5 := by
  have hd : 0 ≤ DefaultPlayerInputConfig.Deceleration := by
    norm_num [DefaultPlayerInputConfig]
  refine ⟨hd, ?_⟩
  have h := (deceleration_floor_c5 DefaultPlayerInputConfig ⟨3, 4⟩ hd).1
  rw [h]
  have hm : (Vector2.mk 3 4).Magnitude = 5 := by
    unfold Vector2.Magnitude Vector2.MagnitudeSquared
    rw [show (3:ℝ) * 3 + 4 * 4 = 5 ^ 2 by norm_num, Real.sqrt_sq (by norm_num)]
  rw [hm]
  rw [show (5:ℝ) - DefaultPlayerInputConfig.Deceleration = 4.5 by
    norm_num [DefaultPlayerInputConfig]]
  rw [max_eq_right (by norm_num)]

/-! ## Camera round-trip (claim C1) -/

/-- Claim C1: for both camera implementations, `ScreenToWorld` composed
with `WorldToScreen` is the identity on every point, for every camera
position, every rotation and every zoom greater than zero — in the
real-valued model the round trip is exact, hence within the 1e-6
tolerance; and `SetZoom` of either implementation always produces a
strictly positive zoom. -/
theorem camera_roundtrip_c1 (c : Camera) (p : Vector2) (hz : 0 < c.zoom) :
    ScreenToWorld1 c (WorldToScreen1 c p) = p ∧
    ScreenToWorld2 c (WorldToScreen2 c p) = p ∧
    (∀ z : ℝ, 0 < (SetZoom1 c z).zoom ∧ 0 < (SetZoom2 c z).zoom) := by
  have hzne : c.zoom ≠ 0 := ne_of_gt hz
  have hcs := Real.sin_sq_add_cos_sq c.rotation
  refine ⟨?_, ?_, ?_⟩
  · by_cases hr : c.rotation = 0
    · simp only [WorldToScreen1, ScreenToWorld1, hr, ne_eq, not_true_eq_false,
        if_false]
      ext <;> field_simp
    · simp only [WorldToScreen1, ScreenToWorld1]
      rw [if_pos hr, if_pos hr]
      ext
      · simp only [Vector2.Rotate, Real.cos_neg, Real.sin_neg]
        field_simp
        linear_combination ((p.x - c.pos.x) * c.zoom) * hcs
      · simp only [Vector2.Rotate, Real.cos_neg, Real.sin_neg]
        field_simp
        linear_combination ((p.y - c.pos.y) * c.zoom ^ 2) * hcs
  · by_cases hr : c.rotation = 0
    · simp only [WorldToScreen2, ScreenToWorld2, hr, ne_eq, not_true_eq_false,
        if_false]
      ext <;> field_simp
    · simp only [WorldToScreen2, ScreenToWorld2]
      rw [if_pos hr, if_pos hr]
      ext
      · simp only [Real.cos_neg, Real.sin_neg]
        field_simp
        linear_combination (p.x - c.pos.x) * hcs
      · simp only [Real.cos_neg, Real.sin_neg]
        field_simp
        linear_combination (p.y - c.pos.y) * hcs
  · intro z
    constructor
    · simp only [SetZoom1]
      exact lt_of_lt_of_le (by norm_num) (le_max_left 0.1 z)
    · simp only [SetZoom2, SetCenter2, GetCenter2]
      exact lt_of_lt_of_le (by norm_num) (le_max_left 0.1 z)

/-- Witness for C1 at a concrete camera and point. -/
theorem camera_roundtrip_c1_witness :
    0 < camTest.zoom ∧
    ScreenToWorld1 camTest (WorldToScreen1 camTest ⟨5, 6⟩) = ⟨5, 6⟩ ∧
    ScreenToWorld2 camTest (WorldToScreen2 camTest ⟨5, 6⟩) = ⟨5, 6⟩ := by
  have hz : 0 < camTest.zoom := by norm_num [camTest]
  have h := camera_roundtrip_c1 camTest ⟨5, 6⟩ hz
  exact ⟨hz, h.1, h.2.1⟩

/-! ## Auto-aim target selection (claim C2) -/

lemma selectFold_spec (pos : Vector2) (l : List TargetInfo) :
    ∀ (b0 : Option TargetInfo) (s0 : ℝ),
      (selectFold pos l b0 s0).2 ≤ s0 ∧
      (∀ u ∈ l, (selectFold pos l b0 s0).2 ≤ distSqTo pos u) ∧
      (selectFold pos l b0 s0 = (b0, s0) ∨
        ∃ t ∈ l, (selectFold pos l b0 s0).1 = some t ∧
          (selectFold pos l b0 s0).2 = distSqTo pos t ∧
          (selectFold pos l b0 s0).2 < s0) := by
  induction l with
  | nil =>
    intro b0 s0
    exact ⟨le_refl _, by simp [selectFold], Or.inl rfl⟩
  | cons u l ih =>
    intro b0 s0
    have hstep : selectFold pos (u :: l) b0 s0 =
        if distSqTo pos u < s0 then selectFold pos l (some u) (distSqTo pos u)
        else selectFold pos l b0 s0 := by
      by_cases h : distSqTo pos u < s0 <;>
        simp [selectFold, List.foldl_cons, h]
    by_cases h : distSqTo pos u < s0
    · rw [hstep, if_pos h]
      obtain ⟨ih1, ih2, ih3⟩ := ih (some u) (distSqTo pos u)
      refine ⟨le_trans ih1 (le_of_lt h), ?_, ?_⟩
      · intro v hv
        rcases List.mem_cons.mp hv with hveq | hvl
        · subst hveq
          exact ih1
        · exact ih2 v hvl
      · rcases ih3 with heq | ⟨t, ht, h1, h2, h3⟩
        · right
          refine ⟨u, List.mem_cons_self u l, ?_, ?_, ?_⟩
          · rw [heq]
          · rw [heq]
          · rw [heq]
            exact h
        · right
          exact ⟨t, List.mem_cons_of_mem u ht, h1, h2, lt_trans h3 h⟩
    · rw [hstep, if_neg h]
      obtain ⟨ih1, ih2, ih3⟩ := ih b0 s0
      refine ⟨ih1, ?_, ?_⟩
      · intro v hv
        rcases List.mem_cons.mp hv with hveq | hvl
        · subst hveq
          exact le_trans ih1 (not_lt.mp h)
        · exact ih2 v hvl
      · rcases ih3 with heq | ⟨t, ht, h1, h2, h3⟩
        · exact Or.inl heq
        · exact Or.inr ⟨t, List.mem_cons_of_mem u ht, h1, h2, h3⟩

/-- Claim C2: when auto-aim is on and the target list is non-empty, one
aim-resolution step selects a target of minimum squared distance among
those with squared distance strictly below `AutoAimRange²` and rotates
by `NormalizeAngle(bearing - rotation) * RotationSpeed` toward its
bearing `atan2(dy, dx)` (re-normalizing the result); when every target
is farther than the range, the rotation is unchanged; and on targets at
distances 50, 150, 500 with range 400 the scan selects the distance-50
target. -/
theorem autoaim_nearest_c2 (inp : InputSnapshot) (c : Controller)
    (targets : List TargetInfo) (hauto : c.autoAim = true) (hne : targets ≠ []) :
    ((∃ u ∈ targets, distSqTo c.pos u <
        c.config.AutoAimRange * c.config.AutoAimRange) →
      ∃ t ∈ targets,
        distSqTo c.pos t < c.config.AutoAimRange * c.config.AutoAimRange ∧
        (∀ u ∈ targets, distSqTo c.pos t ≤ distSqTo c.pos u) ∧
        (selectClosest (c.config.AutoAimRange * c.config.AutoAimRange)
          c.pos targets).1 = some t ∧
        (updateAiming inp c targets).rotation =
          NormalizeAngle (c.rotation +
            NormalizeAngle (atan2 (t.Pos.Sub c.pos).y (t.Pos.Sub c.pos).x
              - c.rotation) * c.config.RotationSpeed)) ∧
    ((∀ u ∈ targets,
        c.config.AutoAimRange * c.config.AutoAimRange < distSqTo c.pos u) →
      (updateAiming inp c targets).rotation = c.rotation) ∧
    (selectClosest (400 * 400) ⟨0, 0⟩ targetsNear).1 = some ⟨1, ⟨50, 0⟩, ⟨0, 0⟩, 0, 0⟩ := by
  have hupd : updateAiming inp c targets =
      { c with rotation := autoAimRotation c.config c.pos c.rotation targets } := by
    unfold updateAiming
    rw [if_pos ⟨hauto, hne⟩]
  obtain ⟨hs1, hs2, hs3⟩ :=
    selectFold_spec c.pos targets none
      (c.config.AutoAimRange * c.config.AutoAimRange)
  refine ⟨?_, ?_, ?_⟩
  · rintro ⟨u, hu, hdu⟩
    rcases hs3 with heq | ⟨t, ht, h1, h2, h3⟩
    · exfalso
      have := hs2 u hu
      rw [show selectFold c.pos targets none
            (c.config.AutoAimRange * c.config.AutoAimRange)
          = (none, c.config.AutoAimRange * c.config.AutoAimRange) from heq] at this
      exact absurd hdu (not_lt.mpr this)
    · refine ⟨t, ht, ?_, ?_, h1, ?_⟩
      · rw [← h2]
        exact h3
      · intro v hv
        rw [← h2]
        exact hs2 v hv
      · rw [hupd]
        show autoAimRotation c.config c.pos c.rotation targets = _
        unfold autoAimRotation
        rw [show (selectClosest (c.config.AutoAimRange * c.config.AutoAimRange)
            c.pos targets).1 = some t from h1]
  · intro hfar
    have hnone : (selectClosest (c.config.AutoAimRange * c.config.AutoAimRange)
        c.pos targets).1 = none := by
      rcases hs3 with heq | ⟨t, ht, h1, h2, h3⟩
      · rw [show selectClosest (c.config.AutoAimRange * c.config.AutoAimRange)
            c.pos targets = (none, c.config.AutoAimRange * c.config.AutoAimRange)
          from heq]
      · exfalso
        rw [h2] at h3
        exact absurd h3 (not_lt.mpr (le_of_lt (hfar t ht)))
    rw [hupd]
    show autoAimRotation c.config c.pos c.rotation targets = c.rotation
    unfold autoAimRotation
    rw [hnone]
  · norm_num [selectClosest, selectFold, distSqTo, targetsNear,
      Vector2.Sub, Vector2.MagnitudeSquared]

/-- Witness for C2 at a concrete input: with the single target at
distance 500 and the default range 400, the rotation is unchanged. -/
theorem autoaim_nearest_c2_witness :
    (updateAiming inpIdle ctlAutoAim targetsFar).rotation = 0 := by
  have h := (autoaim_nearest_c2 inpIdle ctlAutoAim targetsFar rfl
    (by simp [targetsFar])).2.1
  have hfar : ∀ u ∈ targetsFar,
      ctlAutoAim.config.AutoAimRange * ctlAutoAim.config.AutoAimRange
        < distSqTo ctlAutoAim.pos u := by
    intro u hu
    simp only [targetsFar, List.mem_singleton] at hu
    subst hu
    norm_num [ctlAutoAim, DefaultPlayerInputConfig, distSqTo,
      Vector2.Sub, Vector2.MagnitudeSquared]
  rw [h hfar]
  rfl

/-! ## Empty-target auto-aim behavior (claim C3) -/

/-- Claim C3, counterexample: with auto-aim enabled, an empty target
list and a live gamepad aim input, `updateAiming` does not freeze the
rotation — the `else` branch of `if p.autoAim && len(targets) > 0`
runs manual aim and sets the rotation to `atan2(0, 1) = 0`, changing it
from 1. -/
theorem emptyTargets_cex_c3 :
    ctlRotOne.autoAim = true ∧
    ctlRotOne.rotation = 1 ∧
    (updateAiming inpGamepadRight ctlRotOne []).rotation = 0 ∧
    (updateAiming inpGamepadRight ctlRotOne []).rotation ≠ ctlRotOne.rotation := by
  have h0 : (updateAiming inpGamepadRight ctlRotOne []).rotation = 0 := by
    unfold updateAiming
    rw [if_neg (by simp)]
    unfold GetAimVector
    simp only [inpGamepadRight]
    norm_num
    unfold atan2
    rw [if_pos (by norm_num : (0:ℝ) < 1)]
    norm_num [Real.arctan_zero]
  refine ⟨rfl, rfl, h0, ?_⟩
  rw [h0]
  norm_num [ctlRotOne]

/-- Claim C3, amended: when auto-aim is enabled and the target list is
empty, the update falls through to the manual-aim branch rather than
being a no-op.  Reading the aim vector never modifies the rotation, so
the rotation stays unchanged exactly when the resolved aim vector is
zero, and otherwise it is set to `atan2(dy, dx)` of the aim vector. -/
theorem emptyTargets_manual_c3 (inp : InputSnapshot) (c : Controller)
    (hauto : c.autoAim = true) :
    (GetAimVector inp c).2.rotation = c.rotation ∧
    ((GetAimVector inp c).1.1 = 0 ∧ (GetAimVector inp c).1.2 = 0 →
      (updateAiming inp c []).rotation = c.rotation) ∧
    ((GetAimVector inp c).1.1 ≠ 0 ∨ (GetAimVector inp c).1.2 ≠ 0 →
      (updateAiming inp c []).rotation
        = atan2 (GetAimVector inp c).1.2 (GetAimVector inp c).1.1) := by
  have hrot : (GetAimVector inp c).2.rotation = c.rotation := by
    unfold GetAimVector
    rcases hga : inp.gamepadAim with _ | ⟨dx, dy⟩
    · by_cases hm : inp.mouseWorldX ≠ c.lastMouseX ∨ inp.mouseWorldY ≠ c.lastMouseY
      · simp only []
        rw [if_pos hm]
      · simp only []
        rw [if_neg hm]
    · simp only []
  have hupd : updateAiming inp c [] =
      (if (GetAimVector inp c).1.1 ≠ 0 ∨ (GetAimVector inp c).1.2 ≠ 0 then
        { (GetAimVector inp c).2 with
            rotation := atan2 (GetAimVector inp c).1.2 (GetAimVector inp c).1.1 }
      else (GetAimVector inp c).2) := by
    unfold updateAiming
    rw [if_neg (by simp)]
  refine ⟨hrot, ?_, ?_⟩
  · rintro ⟨h1, h2⟩
    rw [hupd, if_neg (by simp [h1, h2])]
    exact hrot
  · intro h
    rw [hupd, if_pos h]

/-- Witness for the amended C3 at a concrete input: with no gamepad, an
unmoved mouse and a zero stored aim, the rotation survives the
empty-target tick unchanged. -/
theorem emptyTargets_manual_c3_witness :
    (GetAimVector inpIdle ctlRotOne).1.1 = 0 ∧
    (updateAiming inpIdle ctlRotOne []).rotation = 1 := by
  have h := emptyTargets_manual_c3 inpIdle ctlRotOne rfl
  have h0 : (GetAimVector inpIdle ctlRotOne).1.1 = 0 ∧
      (GetAimVector inpIdle ctlRotOne).1.2 = 0 := by
    unfold GetAimVector
    simp [inpIdle, ctlRotOne]
  refine ⟨h0.1, ?_⟩
  rw [h.2.1 h0]
  rfl

/-! ## Movement vector magnitude (claim C6) -/

lemma normalizeVector_magnitude_le_one {x y : ℝ} (hx : |x| ≤ 1) (hy : |y| ≤ 1) :
    Real.sqrt ((normalizeVector x y).1 ^ 2 + (normalizeVector x y).2 ^ 2) ≤ 1 := by
  have hS : 0 ≤ x * x + y * y := by nlinarith [mul_self_nonneg x, mul_self_nonneg y]
  simp only [normalizeVector]
  split_ifs with h1 h2
  · have hpos : 0 < Real.sqrt (x * x + y * y) := lt_trans one_pos h2
    have hsq : Real.sqrt (x * x + y * y) ^ 2 = x * x + y * y := Real.sq_sqrt hS
    have hSpos : 0 < x * x + y * y := by
      nlinarith [mul_self_pos.mpr h1.1, mul_self_nonneg y]
    have hone : (x / Real.sqrt (x * x + y * y)) ^ 2
        + (y / Real.sqrt (x * x + y * y)) ^ 2 = 1 := by
      have hexp : (x / Real.sqrt (x * x + y * y)) ^ 2
          + (y / Real.sqrt (x * x + y * y)) ^ 2
          = (x ^ 2 + y ^ 2) / Real.sqrt (x * x + y * y) ^ 2 := by
        ring
      rw [hexp, hsq, show x ^ 2 + y ^ 2 = x * x + y * y from by ring,
        div_self (ne_of_gt hSpos)]
    rw [hone, Real.sqrt_one]
  · have hle : Real.sqrt (x * x + y * y) ≤ 1 := not_lt.mp h2
    calc Real.sqrt (x ^ 2 + y ^ 2) = Real.sqrt (x * x + y * y) := by ring_nf
    _ ≤ 1 := hle
  · rcases Classical.em (x = 0) with hx0 | hx0
    · subst hx0
      rw [show (0:ℝ) ^ 2 + y ^ 2 = y ^ 2 by ring, Real.sqrt_sq_eq_abs]
      exact hy
    · have hy0 : y = 0 := by tauto
      subst hy0
      rw [show x ^ 2 + (0:ℝ) ^ 2 = x ^ 2 by ring, Real.sqrt_sq_eq_abs]
      exact hx

/-- Claim C6, counterexample: with both raw stick axes at 1 (each in
`[-1, 1]`) and the default deadzone 0.2, the smoothed-deadzone rescale
produces a vector of magnitude `(√2 - 0.2)/0.8 ≈ 1.52 > 1`, so the
analog path of `GetMovementVector` does not keep the magnitude at or
below 1. -/
theorem movement_analog_cex_c6 :
    |(1:ℝ)| ≤ 1 ∧
    1 < Real.sqrt
      ((GetMovementVector (1/5) false false false false (some (1, 1))).1 ^ 2
        + (GetMovementVector (1/5) false false false false (some (1, 1))).2 ^ 2) := by
  have hs2 : (1:ℝ) < Real.sqrt 2 := by
    rw [show (1:ℝ) = Real.sqrt 1 by rw [Real.sqrt_one]]
    exact Real.sqrt_lt_sqrt (by norm_num) (by norm_num)
  have hs2pos : (0:ℝ) < Real.sqrt 2 := lt_trans one_pos hs2
  have h2 : Real.sqrt ((1:ℝ) * 1 + 1 * 1) = Real.sqrt 2 := by norm_num
  have hr : GetMovementVector (1/5) false false false false (some (1, 1))
      = (1 / Real.sqrt 2 * ((Real.sqrt 2 - 1/5) / (1 - 1/5)),
         1 / Real.sqrt 2 * ((Real.sqrt 2 - 1/5) / (1 - 1/5))) := by
    simp only [GetMovementVector, digitalDx, digitalDy]
    rw [if_neg (by norm_num)]
    rw [h2, if_neg (by push_neg; linarith)]
  refine ⟨by norm_num, ?_⟩
  rw [hr]
  have hadj : (0:ℝ) < (Real.sqrt 2 - 1/5) / (1 - 1/5) := by
    apply div_pos <;> linarith
  have hsum : (1 / Real.sqrt 2 * ((Real.sqrt 2 - 1/5) / (1 - 1/5))) ^ 2
      + (1 / Real.sqrt 2 * ((Real.sqrt 2 - 1/5) / (1 - 1/5))) ^ 2
      = ((Real.sqrt 2 - 1/5) / (1 - 1/5)) ^ 2 := by
    have h12 : (1 / Real.sqrt 2) ^ 2 = 1 / 2 := by
      rw [div_pow, one_pow, Real.sq_sqrt (by norm_num : (0:ℝ) ≤ 2)]
    have hexp : (1 / Real.sqrt 2 * ((Real.sqrt 2 - 1/5) / (1 - 1/5))) ^ 2
        + (1 / Real.sqrt 2 * ((Real.sqrt 2 - 1/5) / (1 - 1/5))) ^ 2
        = (1 / Real.sqrt 2) ^ 2 * (2 * ((Real.sqrt 2 - 1/5) / (1 - 1/5)) ^ 2) := by
      ring
    rw [hexp, h12]
    ring
  rw [hsum, Real.sqrt_sq (le_of_lt hadj)]
  rw [lt_div_iff (by norm_num : (0:ℝ) < 1 - 1/5)]
  linarith

/-- Claim C6, amended: the digital-key path of `GetMovementVector`
always yields a vector of magnitude at most 1, and up+right gives
exactly `(1/√2, -1/√2)`, within 1e-4 of `(0.7071, -0.7071)` and of
magnitude exactly 1; the analog path keeps the magnitude at most 1
whenever the raw stick magnitude is at most 1 (with a deadzone in
`(0, 1)`), but not for every pair of axis values in `[-1, 1]` — at the
square corner `(1, 1)` it exceeds 1, as the counterexample shows. -/
theorem movement_vector_cap_c6 (dz : ℝ) (up down left right : Bool)
    (stick : Option (ℝ × ℝ)) :
    ((digitalDx left right ≠ 0 ∨ digitalDy up down ≠ 0) →
      Real.sqrt ((GetMovementVector dz up down left right stick).1 ^ 2
        + (GetMovementVector dz up down left right stick).2 ^ 2) ≤ 1) ∧
    (∀ ax ay, digitalDx left right = 0 → digitalDy up down = 0 →
      stick = some (ax, ay) → ax ^ 2 + ay ^ 2 ≤ 1 → 0 < dz → dz < 1 →
      Real.sqrt ((GetMovementVector dz up down left right stick).1 ^ 2
        + (GetMovementVector dz up down left right stick).2 ^ 2) ≤ 1) ∧
    (GetMovementVector dz true false false true none
        = (1 / Real.sqrt 2, -(1 / Real.sqrt 2)) ∧
      |(GetMovementVector dz true false false true none).1 - 0.7071| < 1e-4 ∧
      |(GetMovementVector dz true false false true none).2 + 0.7071| < 1e-4 ∧
      Real.sqrt ((GetMovementVector dz true false false true none).1 ^ 2
        + (GetMovementVector dz true false false true none).2 ^ 2) = 1) := by
  refine ⟨?_, ?_, ?_⟩
  · intro h
    have hred : GetMovementVector dz up down left right stick
        = normalizeVector (digitalDx left right) (digitalDy up down) := by
      simp only [GetMovementVector]
      rw [if_pos h]
    rw [hred]
    have hbx : |digitalDx left right| ≤ 1 := by
      cases left <;> cases right <;> norm_num [digitalDx]
    have hby : |digitalDy up down| ≤ 1 := by
      cases up <;> cases down <;> norm_num [digitalDy]
    exact normalizeVector_magnitude_le_one hbx hby
  · intro ax ay hdx hdy hstick hsum hdz0 hdz1
    have hS : 0 ≤ ax * ax + ay * ay := by
      nlinarith [mul_self_nonneg ax, mul_self_nonneg ay]
    have hred : GetMovementVector dz up down left right stick
        = (if Real.sqrt (ax * ax + ay * ay) < dz then ((0:ℝ), (0:ℝ))
           else (ax / Real.sqrt (ax * ax + ay * ay)
                  * ((Real.sqrt (ax * ax + ay * ay) - dz) / (1 - dz)),
                 ay / Real.sqrt (ax * ax + ay * ay)
                  * ((Real.sqrt (ax * ax + ay * ay) - dz) / (1 - dz)))) := by
      simp only [GetMovementVector, hstick]
      rw [if_neg (by simp [hdx, hdy])]
    rw [hred]
    split_ifs with hmag
    · simp [Real.sqrt_nonneg]
    · have hmagge : dz ≤ Real.sqrt (ax * ax + ay * ay) := not_lt.mp hmag
      have hmagpos : 0 < Real.sqrt (ax * ax + ay * ay) := lt_of_lt_of_le hdz0 hmagge
      have hmagle : Real.sqrt (ax * ax + ay * ay) ≤ 1 := by
        rw [show (1:ℝ) = Real.sqrt 1 by rw [Real.sqrt_one]]
        apply Real.sqrt_le_sqrt
        nlinarith [hsum]
      have hadj0 : 0 ≤ (Real.sqrt (ax * ax + ay * ay) - dz) / (1 - dz) :=
        div_nonneg (by linarith) (by linarith)
      have hadj1 : (Real.sqrt (ax * ax + ay * ay) - dz) / (1 - dz) ≤ 1 := by
        rw [div_le_one (by linarith)]
        linarith
      have hsq : Real.sqrt (ax * ax + ay * ay) ^ 2 = ax * ax + ay * ay :=
        Real.sq_sqrt hS
      have hkey : (ax / Real.sqrt (ax * ax + ay * ay)
            * ((Real.sqrt (ax * ax + ay * ay) - dz) / (1 - dz))) ^ 2
          + (ay / Real.sqrt (ax * ax + ay * ay)
            * ((Real.sqrt (ax * ax + ay * ay) - dz) / (1 - dz))) ^ 2
          = ((Real.sqrt (ax * ax + ay * ay) - dz) / (1 - dz)) ^ 2 := by
        have hSpos : 0 < ax * ax + ay * ay := Real.sqrt_pos.mp hmagpos
        have hexp : (ax / Real.sqrt (ax * ax + ay * ay)
              * ((Real.sqrt (ax * ax + ay * ay) - dz) / (1 - dz))) ^ 2
            + (ay / Real.sqrt (ax * ax + ay * ay)
              * ((Real.sqrt (ax * ax + ay * ay) - dz) / (1 - dz))) ^ 2
            = ((ax ^ 2 + ay ^ 2) / Real.sqrt (ax * ax + ay * ay) ^ 2)
              * ((Real.sqrt (ax * ax + ay * ay) - dz) / (1 - dz)) ^ 2 := by
          ring
        rw [hexp, hsq, show ax ^ 2 + ay ^ 2 = ax * ax + ay * ay from by ring,
          div_self (ne_of_gt hSpos), one_mul]
      rw [hkey, Real.sqrt_sq hadj0]
      exact hadj1
  · have hs2 : (1:ℝ) < Real.sqrt 2 := by
      rw [show (1:ℝ) = Real.sqrt 1 by rw [Real.sqrt_one]]
      exact Real.sqrt_lt_sqrt (by norm_num) (by norm_num)
    have hs2pos : (0:ℝ) < Real.sqrt 2 := lt_trans one_pos hs2
    have hup : Real.sqrt 2 < 1.41422 := by
      rw [Real.sqrt_lt' (by norm_num)]
      norm_num
    have hlo : (1.41421 : ℝ) < Real.sqrt 2 := by
      rw [Real.lt_sqrt (by norm_num)]
      norm_num
    have hdx1 : digitalDx false true = 1 := by norm_num [digitalDx]
    have hdy1 : digitalDy true false = -1 := by norm_num [digitalDy]
    have hr : GetMovementVector dz true false false true none
        = (1 / Real.sqrt 2, -(1 / Real.sqrt 2)) := by
      simp only [GetMovementVector]
      rw [hdx1, hdy1]
      rw [if_pos (Or.inl (by norm_num : (1:ℝ) ≠ 0))]
      simp only [normalizeVector]
      rw [if_pos ⟨(by norm_num : (1:ℝ) ≠ 0), (by norm_num : (-1:ℝ) ≠ 0)⟩]
      rw [show (1:ℝ) * 1 + (-1) * (-1) = 2 by norm_num]
      rw [if_pos hs2]
      rw [Prod.mk.injEq]
      constructor
      · rfl
      · rw [neg_div]
    have hinvlt : (Real.sqrt 2)⁻¹ < 0.70711 := by
      rw [inv_lt_comm₀ hs2pos (by norm_num)]
      nlinarith [hlo]
    have hinvgt : (0.70710 : ℝ) < (Real.sqrt 2)⁻¹ := by
      rw [lt_inv_comm₀ (by norm_num) hs2pos]
      nlinarith [hup]
    have hhalf : (1 / Real.sqrt 2) ^ 2 = 1 / 2 := by
      rw [div_pow, one_pow, Real.sq_sqrt (by norm_num : (0:ℝ) ≤ 2)]
    refine ⟨hr, ?_, ?_, ?_⟩
    · rw [hr]
      show |1 / Real.sqrt 2 - 0.7071| < 1e-4
      rw [one_div, abs_lt]
      constructor
      · nlinarith [hinvgt]
      · nlinarith [hinvlt]
    · rw [hr]
      show |(-(1 / Real.sqrt 2)) + 0.7071| < 1e-4
      rw [one_div, abs_lt]
      constructor
      · nlinarith [hinvlt]
      · nlinarith [hinvgt]
    · rw [hr]
      show Real.sqrt ((1 / Real.sqrt 2) ^ 2 + (-(1 / Real.sqrt 2)) ^ 2) = 1
      rw [show (1 / Real.sqrt 2) ^ 2 + (-(1 / Real.sqrt 2)) ^ 2
          = (1 / Real.sqrt 2) ^ 2 + (1 / Real.sqrt 2) ^ 2 by ring]
      rw [hhalf]
      norm_num

/-- Witness for the amended C6: a raw stick reading of magnitude 1
(axes 3/5, 4/5) with deadzone 0.2 stays within magnitude 1. -/
theorem movement_vector_cap_c6_witness :
    Real.sqrt
      ((GetMovementVector (1/5) false false false false (some (3/5, 4/5))).1 ^ 2
        + (GetMovementVector (1/5) false false false false (some (3/5, 4/5))).2 ^ 2)
      ≤ 1 := by
  have h := (movement_vector_cap_c6 (1/5) false false false false
    (some (3/5, 4/5))).2.1
  exact h (3/5) (4/5) (by norm_num [digitalDx]) (by norm_num [digitalDy]) rfl
    (by norm_num) (by norm_num) (by norm_num)

/-! ## Aim direction unit-vector property (claim C8) -/

lemma Vector2.magnitudeSquared_pos {v : Vector2} (h : v ≠ ⟨0, 0⟩) :
    0 < v.MagnitudeSquared := by
  rcases lt_or_eq_of_le (Vector2.magnitudeSquared_nonneg v) with h1 | h1
  · exact h1
  · exfalso
    apply h
    have hm : v.Magnitude = 0 := by
      unfold Vector2.Magnitude
      rw [← h1, Real.sqrt_zero]
    exact (Vector2.magnitude_eq_zero_iff v).mp hm

/-- Claim C8, counterexample: `Manager.GetGamepadAim` passes the raw
half-deflected right stick `(1/2, 0)` through (deadzone 0.2), and
`PlayerInput.GetAimVector` stores and returns it unnormalized, so
`PlayerInput.GetAimDirection` yields a vector of magnitude 1/2, not a
unit vector. -/
theorem aim_not_unit_cex_c8 :
    GetGamepadAim (1/5) (some (1/2, 0)) = (1/2, 0, true) ∧
    (PlayerInputGetAimDirection inpGamepadHalf ctlAutoAim).Magnitude = 1/2 ∧
    ((1:ℝ)/2) ≠ 1 := by
  refine ⟨?_, ?_, by norm_num⟩
  · simp only [GetGamepadAim]
    rw [if_pos]
    left
    rw [abs_of_nonneg (by norm_num : (0:ℝ) ≤ 1/2)]
    norm_num
  · have hr : PlayerInputGetAimDirection inpGamepadHalf ctlAutoAim
        = ⟨1/2, 0⟩ := by
      unfold PlayerInputGetAimDirection GetAimVector
      simp [inpGamepadHalf]
    rw [hr]
    unfold Vector2.Magnitude Vector2.MagnitudeSquared
    rw [show (1:ℝ)/2 * (1/2) + 0 * 0 = (1/2) ^ 2 by norm_num,
      Real.sqrt_sq (by norm_num : (0:ℝ) ≤ 1/2)]

/-- Claim C8, amended: `Controller.GetAimDirection` of part_005 always
returns a unit vector; but `PlayerInput.GetAimDirection` returns the
stored aim pair as-is — the gamepad branch passes the raw right-stick
vector through without normalizing (so it is a unit vector only if the
stick reading happens to be one), while the mouse branch does return a
unit vector whenever the mouse moved to a position distinct from the
player. -/
theorem aim_direction_unit_c8 (rotation : ℝ) (inp : InputSnapshot) (c : Controller) :
    (ControllerGetAimDirection rotation).Magnitude = 1 ∧
    (∀ dx dy, inp.gamepadAim = some (dx, dy) →
      PlayerInputGetAimDirection inp c = ⟨dx, dy⟩) ∧
    (inp.gamepadAim = none →
      (inp.mouseWorldX ≠ c.lastMouseX ∨ inp.mouseWorldY ≠ c.lastMouseY) →
      Vector2.Sub ⟨(inp.mouseWorldX : ℝ), (inp.mouseWorldY : ℝ)⟩ c.pos ≠ ⟨0, 0⟩ →
      (PlayerInputGetAimDirection inp c).Magnitude = 1) := by
  refine ⟨?_, ?_, ?_⟩
  · have hcs := Real.sin_sq_add_cos_sq rotation
    have hm : (Vector2.mk (Real.cos rotation) (Real.sin rotation)).Magnitude = 1 := by
      unfold Vector2.Magnitude Vector2.MagnitudeSquared
      rw [show Real.cos rotation * Real.cos rotation
          + Real.sin rotation * Real.sin rotation = 1 from by linear_combination hcs]
      exact Real.sqrt_one
    unfold ControllerGetAimDirection
    exact Vector2.magnitude_normalized _ (by rw [hm]; exact one_ne_zero)
  · intro dx dy h
    unfold PlayerInputGetAimDirection GetAimVector
    rw [h]
  · intro hnone hmoved hne
    have hmagSqpos :
        0 < (Vector2.Sub ⟨(inp.mouseWorldX : ℝ), (inp.mouseWorldY : ℝ)⟩
          c.pos).MagnitudeSquared := Vector2.magnitudeSquared_pos hne
    have hr : PlayerInputGetAimDirection inp c
        = (Vector2.Sub ⟨(inp.mouseWorldX : ℝ), (inp.mouseWorldY : ℝ)⟩
            c.pos).Normalized := by
      unfold PlayerInputGetAimDirection GetAimVector
      rw [hnone]
      simp only []
      rw [if_pos hmoved, if_pos hmagSqpos]
    rw [hr]
    have hmne : (Vector2.Sub ⟨(inp.mouseWorldX : ℝ), (inp.mouseWorldY : ℝ)⟩
        c.pos).Magnitude ≠ 0 :=
      fun h0 => hne ((Vector2.magnitude_eq_zero_iff _).mp h0)
    exact Vector2.magnitude_normalized _ hmne

/-- Witness for the amended C8: with the mouse moved to (3, 4) and the
player at the origin, `PlayerInput.GetAimDirection` is a unit vector. -/
theorem aim_direction_unit_c8_witness :
    (PlayerInputGetAimDirection inpMouseMoved ctlRotOne).Magnitude = 1 := by
  apply (aim_direction_unit_c8 0 inpMouseMoved ctlRotOne).2.2 rfl
  · left
    norm_num [inpMouseMoved, ctlRotOne]
  · intro hcontra
    have hx := congrArg Vector2.x hcontra
    norm_num [inpMouseMoved, ctlRotOne, Vector2.Sub] at hx
